import Mathlib

/-!
Verification of the my-calculator arithmetic expression evaluator.

The development shallowly embeds the calculator pipeline from `src/lib.rs`:
lexing (`lex`, `parse_number`, `parse_variable`), recursive-descent parsing
with operator-precedence climbing (`parse_primary`, `parse_expr`,
`parse_expr_rec` and the inner climbing loop, here `parse_inner`), and tree
evaluation against a mutable variable context (`eval_tree`, `eval`).

Modelling decisions:

* `BigDecimal` values are modelled as exact rationals (`ℚ`).  The source uses
  the arbitrary-precision decimal type of the `bigdecimal` crate, whose
  addition, subtraction, multiplication, negation and decimal-literal parsing
  are exact, so `ℚ` is a faithful model for every operation the theorems
  below depend on.  The crate's division (rounding of non-terminating
  quotients, behaviour on a zero divisor) lives outside this repository and
  is modelled here as exact rational division; no theorem below depends on
  the value of a quotient.
* The borrowed `Peekable<DoubleEndedIterator>` token stream is modelled as a
  `List Token`: `peek`/`next` operate on the head, `next_back` on the last
  element.  Parser functions return the parse tree together with the
  remaining (unconsumed) token list, exactly the state left in the iterator.
* The mutually recursive parsing loops are made total with an explicit fuel
  parameter.  A call-depth analysis of the four functions shows depth at
  most `length + 2` for any input, so the fuel `length + 8` used by
  `parseTokens` never runs out; the constant offset means wrapping a token
  list in one pair of parentheses raises the required fuel by exactly 2.
* The `HashMap<String, BigDecimal>` context is modelled as an association
  list with unique keys; `ctxInsert` overwrites any previous binding, as
  `HashMap::insert` does.  Context mutations performed before an error are
  kept, matching the `&mut` threading of the source, so `eval_tree` returns
  the updated context in both the success and the error case.
-/

deriving instance DecidableEq for Except

attribute [local semireducible] Rat.add Rat.sub Rat.mul Rat.inv

namespace MyCalculator

/-- Decimal values of the calculator, modelled as exact rationals (see the
module docstring for the correspondence with the `bigdecimal` crate). -/
abbrev BigDecimal := ℚ

/-- Lex-stage errors, from `enum LexError` in `src/lib.rs`. -/
inductive LexError
  | IllegalToken (token : String)
  | IllegalNumber (text : String)
  | NonAsciiInput
  deriving DecidableEq

/-- Parse-stage errors, from `enum ParseError` in `src/lib.rs`. -/
inductive ParseError
  | UnmatchedParens
  | UnmatchedToken
  | ExpectedBinaryOperator
  | ExpectedVariable
  | EmptyInput
  deriving DecidableEq

/-- Top-level errors, from `enum EvalError` in `src/lib.rs`.  Lex and parse
errors are wrapped (the `#[from]` conversions used by the `?` operator). -/
inductive EvalError
  | LexError (e : LexError)
  | ParseError (e : ParseError)
  | EmptyInput
  | UnassignedVariable (name : String)
  deriving DecidableEq

/-- Tokens produced by the lexer, from `enum Token` in `src/lib.rs`. -/
inductive Token
  | Number (value : BigDecimal)
  | Variable (name : String)
  | ParenStart
  | ParenClose
  | Assignment
  | Plus
  | Minus
  | Mul
  | Div
  deriving DecidableEq

/-- Operator precedence, from `Token::op_precedence`. -/
def Token.op_precedence : Token → Option Nat
  | .Assignment => some 0
  | .Plus | .Minus => some 1
  | .Mul | .Div => some 2
  | _ => none

/-- Parse trees, from `enum ParseTree` in `src/lib.rs`. -/
inductive ParseTree
  | Number (value : BigDecimal)
  | Variable (name : String)
  | Neg (child : ParseTree)
  | Assignment (name : String) (child : ParseTree)
  | Plus (left right : ParseTree)
  | Sub (left right : ParseTree)
  | Mul (left right : ParseTree)
  | Div (left right : ParseTree)
  deriving DecidableEq

/-- Combining a parsed left-hand side with an operator token and a right-hand
side, from `ParseTree::apply`.  Assignment demands a bare variable on the
left. -/
def ParseTree.apply (self : ParseTree) (op : Token) (other : ParseTree) :
    Except ParseError ParseTree :=
  match op with
  | .Plus => .ok (.Plus self other)
  | .Minus => .ok (.Sub self other)
  | .Mul => .ok (.Mul self other)
  | .Div => .ok (.Div self other)
  | .Assignment =>
    match self with
    | .Variable name => .ok (.Assignment name other)
    | _ => .error .ExpectedVariable
  | _ => .error .ExpectedBinaryOperator

/-- ASCII whitespace, as recognised by `u8::is_ascii_whitespace`. -/
def isAsciiWhitespace (c : Char) : Bool :=
  c == ' ' || c == '\t' || c == '\n' || c == '\x0c' || c == '\r'

/-- Bytes that start (and continue) a number run: `b'0'..=b'9' | b'.'`. -/
def isNumChar (c : Char) : Bool :=
  ('0' ≤ c && c ≤ '9') || c == '.'

/-- Bytes that start a variable run: `b'a'..=b'z' | b'_'`. -/
def isVarStart (c : Char) : Bool :=
  ('a' ≤ c && c ≤ 'z') || c == '_'

/-- Bytes that continue a variable run: `b'a'..=b'z' | b'-'`. -/
def isVarCont (c : Char) : Bool :=
  ('a' ≤ c && c ≤ 'z') || c == '-'

/-- The single-character tokens of the `match byte` in `lex`. -/
def singleToken (c : Char) : Option Token :=
  if c == '(' then some .ParenStart
  else if c == ')' then some .ParenClose
  else if c == '+' then some .Plus
  else if c == '-' then some .Minus
  else if c == '*' then some .Mul
  else if c == '/' then some .Div
  else if c == '=' then some .Assignment
  else none

/-- Numeric value of a non-empty all-digit character list, `none` otherwise;
this is `BigInt::from_str` restricted to the inputs reachable from `lex`
(strings over digits and dots with the first dot removed). -/
def digitsVal : List Char → Option Nat
  | [] => none
  | cs =>
    if cs.all Char.isDigit then
      some (cs.foldl (fun acc c => acc * 10 + (c.toNat - 48)) 0)
    else none

/-- Decimal-literal parsing, `BigDecimal::from_str` on a maximal digit-and-dot
run: split at the first dot, concatenate the remaining digits and scale by
the length of the fractional part.  A second dot or an all-dots run makes the
digit parse fail. -/
def parseDecimal (cs : List Char) : Option BigDecimal :=
  let lead := cs.takeWhile (fun c => c != '.')
  let rest := cs.dropWhile (fun c => c != '.')
  match rest with
  | [] => (digitsVal lead).map (fun n => (n : ℚ))
  | _ :: trail =>
    match digitsVal (lead ++ trail) with
    | some n => some ((n : ℚ) / (10 : ℚ) ^ trail.length)
    | none => none

/-- The token-producing loop of `lex`: skip ASCII whitespace, emit
single-character tokens, consume maximal number and variable runs
(`parse_number` and `parse_variable` inlined as the take/drop of the run),
and reject any other byte.  The loop consumes at least one character per
iteration, so it is made structurally recursive on a fuel equal to the
number of characters, which therefore never runs out. -/
def lexLoop : Nat → List Char → Except LexError (List Token)
  | _, [] => .ok []
  | 0, _ :: _ => .error (.IllegalToken "")
  | fuel + 1, c :: rest =>
    if isAsciiWhitespace c then lexLoop fuel rest
    else
      match singleToken c with
      | some tok =>
        match lexLoop fuel rest with
        | .ok ts => .ok (tok :: ts)
        | .error e => .error e
      | none =>
        if isNumChar c then
          match parseDecimal (c :: rest.takeWhile isNumChar) with
          | some num =>
            match lexLoop fuel (rest.dropWhile isNumChar) with
            | .ok ts => .ok (Token.Number num :: ts)
            | .error e => .error e
          | none => .error (.IllegalNumber (String.mk (c :: rest.takeWhile isNumChar)))
        else if isVarStart c then
          match lexLoop fuel (rest.dropWhile isVarCont) with
          | .ok ts => .ok (Token.Variable (String.mk (c :: rest.takeWhile isVarCont)) :: ts)
          | .error e => .error e
        else .error (.IllegalToken (String.mk [c]))

/-- The lexer, from `fn lex`: reject non-ASCII input, then tokenise. -/
def lex (input : String) : Except LexError (List Token) :=
  if input.data.all (fun c => c.toNat < 128) then lexLoop input.data.length input.data
  else .error .NonAsciiInput

mutual

/-- Primary parsing, from `fn parse_primary`: one leading token decides the
node; a `ParenStart` pops the last remaining token of the whole stream and
requires it to be `ParenClose`. -/
def parse_primary : Nat → List Token → Except ParseError (ParseTree × List Token)
  | 0, _ => .error .UnmatchedToken
  | _ + 1, [] => .error .EmptyInput
  | fuel + 1, Token.ParenStart :: rest =>
    match rest.getLast? with
    | some Token.ParenClose => parse_expr fuel rest.dropLast
    | _ => .error .UnmatchedParens
  | _ + 1, Token.Number num :: rest => .ok (ParseTree.Number num, rest)
  | fuel + 1, Token.Minus :: rest =>
    match parse_primary fuel rest with
    | .ok (t, rem) => .ok (ParseTree.Neg t, rem)
    | .error e => .error e
  | _ + 1, Token.Variable name :: rest => .ok (ParseTree.Variable name, rest)
  | _ + 1, _ :: _ => .error .UnmatchedToken

/-- Expression parsing, from `fn parse_expr`: a primary followed by
precedence climbing with minimum precedence 0. -/
def parse_expr : Nat → List Token → Except ParseError (ParseTree × List Token)
  | 0, _ => .error .UnmatchedToken
  | fuel + 1, input =>
    match parse_primary fuel input with
    | .ok (lhs, rest) => parse_expr_rec fuel lhs rest 0
    | .error e => .error e

/-- The outer precedence-climbing loop of `fn parse_expr_rec`: while the
lookahead is an operator of precedence at least `min_precedence`, consume it,
parse a right-hand primary, let the inner loop absorb tighter-binding
operators, and apply the operator. -/
def parse_expr_rec : Nat → ParseTree → List Token → Nat →
    Except ParseError (ParseTree × List Token)
  | 0, _, _, _ => .error .UnmatchedToken
  | fuel + 1, lhs, op :: rest, min_precedence =>
    match op.op_precedence with
    | some p =>
      if min_precedence ≤ p then
        match parse_primary fuel rest with
        | .ok (rhs0, rem0) =>
          match parse_inner fuel rhs0 rem0 p with
          | .ok (rhs, rem) =>
            match lhs.apply op rhs with
            | .ok lhs2 => parse_expr_rec fuel lhs2 rem min_precedence
            | .error e => .error e
          | .error e => .error e
        | .error e => .error e
      else .ok (lhs, op :: rest)
    | none => .ok (lhs, op :: rest)
  | _ + 1, lhs, [], _ => .ok (lhs, [])

/-- The inner while loop of `fn parse_expr_rec`: while the lookahead operator
binds strictly tighter than the operator just consumed, absorb it into the
right-hand side at its own precedence. -/
def parse_inner : Nat → ParseTree → List Token → Nat →
    Except ParseError (ParseTree × List Token)
  | 0, _, _, _ => .error .UnmatchedToken
  | fuel + 1, rhs, la :: rest, op_prec =>
    match la.op_precedence with
    | some p =>
      if op_prec < p then
        match parse_expr_rec fuel rhs (la :: rest) p with
        | .ok (rhs2, rem2) => parse_inner fuel rhs2 rem2 op_prec
        | .error e => .error e
      else .ok (rhs, la :: rest)
    | none => .ok (rhs, la :: rest)
  | _ + 1, rhs, [], _ => .ok (rhs, [])

end

/-- Fuel that always suffices for the parser (call depth is bounded by
`length + 2`; see the module docstring). -/
def parserFuel (ts : List Token) : Nat := ts.length + 8

/-- Running `parse_expr` on a token list with sufficient fuel; this is the
call `parse_expr(&mut token_iter)` made by `eval`.  The returned list holds
the tokens left unconsumed in the iterator. -/
def parseTokens (ts : List Token) : Except ParseError (ParseTree × List Token) :=
  parse_expr (parserFuel ts) ts

/-- The variable store of `struct EvalContext`, an association list with
unique keys modelling `HashMap<String, BigDecimal>`.  The default context is
the empty list. -/
abbrev EvalContext := List (String × BigDecimal)

/-- Lookup, `context.variables.get(name)`. -/
def ctxLookup (context : EvalContext) (name : String) : Option BigDecimal :=
  (context.find? (fun p => p.1 == name)).map (fun p => p.2)

/-- Insertion, `context.variables.insert(name, value)`: overwrites any prior
binding for `name`. -/
def ctxInsert (context : EvalContext) (name : String) (value : BigDecimal) :
    EvalContext :=
  (name, value) :: context.filter (fun p => p.1 != name)

/-- Tree evaluation, from `fn eval_tree`.  The context is threaded
explicitly: it is returned unchanged or updated in the success case and,
matching the `&mut` reference of the source, every mutation performed before
an error is kept in the error case as well. -/
def eval_tree : ParseTree → EvalContext → Except EvalError BigDecimal × EvalContext
  | .Number num, context => (.ok num, context)
  | .Variable name, context =>
    match ctxLookup context name with
    | some v => (.ok v, context)
    | none => (.error (.UnassignedVariable name), context)
  | .Assignment name tree, context =>
    match eval_tree tree context with
    | (.ok result, context') => (.ok result, ctxInsert context' name result)
    | err => err
  | .Neg tree, context =>
    match eval_tree tree context with
    | (.ok v, context') => (.ok (-v), context')
    | err => err
  | .Plus left right, context =>
    match eval_tree left context with
    | (.ok a, context') =>
      match eval_tree right context' with
      | (.ok b, context2) => (.ok (a + b), context2)
      | err => err
    | err => err
  | .Sub left right, context =>
    match eval_tree left context with
    | (.ok a, context') =>
      match eval_tree right context' with
      | (.ok b, context2) => (.ok (a - b), context2)
      | err => err
    | err => err
  | .Mul left right, context =>
    match eval_tree left context with
    | (.ok a, context') =>
      match eval_tree right context' with
      | (.ok b, context2) => (.ok (a * b), context2)
      | err => err
    | err => err
  | .Div left right, context =>
    match eval_tree left context with
    | (.ok a, context') =>
      match eval_tree right context' with
      | (.ok b, context2) => (.ok (a / b), context2)
      | err => err
    | err => err

/-- Parsing followed by evaluation, the last two stages of `fn eval`.  Note
that the tokens left unconsumed by the parser are dropped, exactly as the
source drops the iterator after `parse_expr` returns. -/
def evalTokens (ts : List Token) (context : EvalContext) :
    Except EvalError BigDecimal × EvalContext :=
  match parseTokens ts with
  | .ok (tree, _) => eval_tree tree context
  | .error e => (.error (.ParseError e), context)

/-- The top-level pipeline, from `fn eval` (the `print_parse_tree` diagnostic
printing has no effect on the result and is omitted). -/
def eval (input : String) (context : EvalContext) :
    Except EvalError BigDecimal × EvalContext :=
  match lex input with
  | .ok ts => evalTokens ts context
  | .error e => (.error (.LexError e), context)

/-- Trees containing no `Assignment` node. -/
def noAssign : ParseTree → Bool
  | .Number _ => true
  | .Variable _ => true
  | .Assignment _ _ => false
  | .Neg t => noAssign t
  | .Plus l r => noAssign l && noAssign r
  | .Sub l r => noAssign l && noAssign r
  | .Mul l r => noAssign l && noAssign r
  | .Div l r => noAssign l && noAssign r

/-- Token lists containing no parenthesis token. -/
def noParens (ts : List Token) : Bool :=
  ts.all (fun t =>
    match t with
    | .ParenStart => false
    | .ParenClose => false
    | _ => true)

/-- Wrapping a token list that parses to a fully consumed tree in one pair of
parentheses parses to the same tree, at fuel shifted by exactly 2: the
`ParenStart` branch of `parse_primary` pops the trailing `ParenClose` and
recursively parses exactly the original list. -/
theorem parse_expr_wrap (fuel : Nat) (ts : List Token) (t : ParseTree)
    (hp : parse_expr fuel ts = .ok (t, [])) :
    parse_expr (fuel + 2) (Token.ParenStart :: (ts ++ [Token.ParenClose])) = .ok (t, []) := by
  have h1 : (ts ++ [Token.ParenClose]).getLast? = some Token.ParenClose := by
    simp
  have h2 : (ts ++ [Token.ParenClose]).dropLast = ts := by
    simp
  show parse_expr (fuel + 1 + 1) (Token.ParenStart :: (ts ++ [Token.ParenClose])) = .ok (t, [])
  rw [parse_expr, parse_primary, h1, h2, hp]
  simp [parse_expr_rec]

/-- Claim C1, counterexample: the claim asserts that wrapping any
subexpression of a parenthesis-free expression in redundant parentheses
preserves successful evaluation, giving the example that evaluating
"(5) + 10 * 2" equals evaluating "5 + 10 * 2".  In fact the first input
fails with `UnmatchedParens` (the parser pops the last token of the whole
stream, here the trailing `2`, as the expected closing parenthesis) while
the second evaluates to 25. -/
theorem c1_counterexample :
    (eval "(5) + 10 * 2" []).1 = .error (.ParseError .UnmatchedParens) ∧
    (eval "5 + 10 * 2" []).1 = .ok 25 := by
  constructor <;> decide

/-- Claim C1 (corrected): for every parenthesis-free token sequence that
parses to a tree consuming all tokens, wrapping the ENTIRE sequence in one
pair of redundant parentheses parses to the same tree and therefore
evaluates to the same result in every context.  Wrapping a proper
subexpression can fail instead (see the counterexample). -/
theorem c1_amended (ts : List Token) (t : ParseTree) (context : EvalContext)
    (_hnp : noParens ts = true)
    (hp : parseTokens ts = .ok (t, [])) :
    parseTokens (Token.ParenStart :: (ts ++ [Token.ParenClose])) = .ok (t, []) ∧
    evalTokens (Token.ParenStart :: (ts ++ [Token.ParenClose])) context =
      evalTokens ts context := by
  have hlen : parserFuel (Token.ParenStart :: (ts ++ [Token.ParenClose])) =
      parserFuel ts + 2 := by
    simp [parserFuel]
  have hw : parseTokens (Token.ParenStart :: (ts ++ [Token.ParenClose])) = .ok (t, []) := by
    unfold parseTokens at hp ⊢
    rw [hlen]
    exact parse_expr_wrap _ _ _ hp
  refine ⟨hw, ?_⟩
  simp only [evalTokens, hw, hp]

/-- Claim C1, witness: instantiating the corrected claim on the tokens of
"5 + 10 * 2". -/
theorem c1_amended_witness :
    noParens [Token.Number 5, Token.Plus, Token.Number 10, Token.Mul, Token.Number 2] = true ∧
    parseTokens [Token.Number 5, Token.Plus, Token.Number 10, Token.Mul, Token.Number 2] =
      .ok (ParseTree.Plus (ParseTree.Number 5)
        (ParseTree.Mul (ParseTree.Number 10) (ParseTree.Number 2)), []) ∧
    parseTokens (Token.ParenStart ::
        ([Token.Number 5, Token.Plus, Token.Number 10, Token.Mul, Token.Number 2] ++
          [Token.ParenClose])) =
      .ok (ParseTree.Plus (ParseTree.Number 5)
        (ParseTree.Mul (ParseTree.Number 10) (ParseTree.Number 2)), []) ∧
    evalTokens (Token.ParenStart ::
        ([Token.Number 5, Token.Plus, Token.Number 10, Token.Mul, Token.Number 2] ++
          [Token.ParenClose])) [] =
      evalTokens [Token.Number 5, Token.Plus, Token.Number 10, Token.Mul, Token.Number 2] [] :=
  ⟨by decide, by decide,
    (c1_amended [Token.Number 5, Token.Plus, Token.Number 10, Token.Mul, Token.Number 2]
      (ParseTree.Plus (ParseTree.Number 5)
        (ParseTree.Mul (ParseTree.Number 10) (ParseTree.Number 2))) []
      (by decide) (by decide)).1,
    (c1_amended [Token.Number 5, Token.Plus, Token.Number 10, Token.Mul, Token.Number 2]
      (ParseTree.Plus (ParseTree.Number 5)
        (ParseTree.Mul (ParseTree.Number 10) (ParseTree.Number 2))) []
      (by decide) (by decide)).2⟩

/-- Claim C2, counterexample: the claim asserts that a successful parse
consumes the whole token stream and that inputs such as "1 2" or "1)" fail
with a parse error.  In fact the parser returns the prefix tree with the
trailing tokens left unconsumed, and `eval` returns the prefix's value: both
"1 2" and "1)" evaluate successfully to 1. -/
theorem c2_counterexample :
    parseTokens [Token.Number 1, Token.Number 2] =
      .ok (ParseTree.Number 1, [Token.Number 2]) ∧
    (eval "1 2" []).1 = .ok 1 ∧
    (eval "1)" []).1 = .ok 1 := by
  refine ⟨by decide, by decide, by decide⟩

/-- Claim C2 (corrected): the parser can return a tree successfully while
leaving trailing tokens unconsumed; `eval` silently discards those trailing
tokens and returns the result of the parsed prefix instead of failing:
"1 2" and "1)" both evaluate successfully to 1, and "1 + 2)" to 3. -/
theorem c2_amended :
    eval "1 2" [] = (.ok 1, []) ∧
    eval "1)" [] = (.ok 1, []) ∧
    eval "1 + 2)" [] = (.ok 3, []) ∧
    parseTokens [Token.Number 1, Token.ParenClose] =
      .ok (ParseTree.Number 1, [Token.ParenClose]) := by
  refine ⟨by decide, by decide, by decide, by decide⟩

/-- Claim C4 (confirmed): evaluating "0.1 + 0.2" in any context succeeds and
yields exactly the decimal 0.3 = 3/10, with no binary floating-point
rounding. -/
theorem c4_precision (context : EvalContext) :
    (eval "0.1 + 0.2" context).1 = .ok (3 / 10) := rfl

/-- Claim C5 (confirmed): multiplication binds tighter than addition and
parentheses override precedence: "5 + 10 * 2" evaluates to 25 and
"2 * (10 + 11)" to 42, in any context. -/
theorem c5_precedence (context : EvalContext) :
    (eval "5 + 10 * 2" context).1 = .ok 25 ∧
    (eval "2 * (10 + 11)" context).1 = .ok 42 :=
  ⟨rfl, rfl⟩

/-- Claim C6 (confirmed): equal-precedence addition and subtraction
associate to the left: "5 - 5 + 5" parses as (5 - 5) + 5 and evaluates to 5
in any context. -/
theorem c6_left_assoc :
    lex "5 - 5 + 5" =
      .ok [Token.Number 5, Token.Minus, Token.Number 5, Token.Plus, Token.Number 5] ∧
    parseTokens [Token.Number 5, Token.Minus, Token.Number 5, Token.Plus, Token.Number 5] =
      .ok (ParseTree.Plus (ParseTree.Sub (ParseTree.Number 5) (ParseTree.Number 5))
        (ParseTree.Number 5), []) ∧
    ∀ context : EvalContext, (eval "5 - 5 + 5" context).1 = .ok 5 :=
  ⟨by decide, by decide, fun _ => rfl⟩

/-- Claim C7 (confirmed): evaluating "devil = 666" against any context
stores 666 under "devil" (overwriting any prior binding) and returns 666,
the new binding is immediately visible, and a subsequent eval of
"devil - 666" sharing the resulting context returns 0. -/
theorem c7_assignment (context : EvalContext) :
    eval "devil = 666" context = (.ok 666, ctxInsert context "devil" 666) ∧
    ctxLookup (ctxInsert context "devil" 666) "devil" = some 666 ∧
    (eval "devil - 666" (ctxInsert context "devil" 666)).1 = .ok 0 :=
  ⟨rfl, rfl, rfl⟩

/-- Claim C8 (confirmed): looking up a variable with no binding in the
context fails with `UnassignedVariable` carrying the variable's name — never
a default value and never a crash — and the context is left unchanged. -/
theorem c8_unassigned (context : EvalContext) (name : String)
    (h : ctxLookup context name = none) :
    eval_tree (.Variable name) context =
      (.error (.UnassignedVariable name), context) := by
  simp only [eval_tree, h]

/-- Claim C8, witness: looking up "x" in a context binding only "y". -/
theorem c8_unassigned_witness :
    ctxLookup [("y", (1 : BigDecimal))] "x" = none ∧
    eval_tree (.Variable "x") [("y", (1 : BigDecimal))] =
      (.error (.UnassignedVariable "x"), [("y", (1 : BigDecimal))]) :=
  ⟨by decide, c8_unassigned [("y", (1 : BigDecimal))] "x" (by decide)⟩

/-- Claim C9 (confirmed): evaluating a tree that contains no `Assignment`
node leaves the context unchanged, whether evaluation succeeds or fails;
only `Assignment` nodes modify the context. -/
theorem c9_frame : ∀ (t : ParseTree) (context : EvalContext),
    noAssign t = true → (eval_tree t context).2 = context := by
  intro t
  induction t with
  | Number v => intro context h; rfl
  | Variable n =>
    intro context h
    simp only [eval_tree]
    split <;> rfl
  | Assignment n c ih =>
    intro context h
    simp [noAssign] at h
  | Neg t iht =>
    intro context h
    simp only [noAssign] at h
    simp only [eval_tree]
    split
    · next v c' heq =>
      have h0 := iht context h
      rw [heq] at h0
      exact h0
    · next =>
      exact iht context h
  | Plus l r ihl ihr =>
    intro context h
    simp only [noAssign, Bool.and_eq_true] at h
    simp only [eval_tree]
    split
    · next a c' heq =>
      have h1 : c' = context := by
        have h0 := ihl context h.1
        rw [heq] at h0
        exact h0
      split
      · next b c2 heq2 =>
        have h2 : c2 = c' := by
          have h0 := ihr c' h.2
          rw [heq2] at h0
          exact h0
        exact h2.trans h1
      · next =>
        exact (ihr c' h.2).trans h1
    · next =>
      exact ihl context h.1
  | Sub l r ihl ihr =>
    intro context h
    simp only [noAssign, Bool.and_eq_true] at h
    simp only [eval_tree]
    split
    · next a c' heq =>
      have h1 : c' = context := by
        have h0 := ihl context h.1
        rw [heq] at h0
        exact h0
      split
      · next b c2 heq2 =>
        have h2 : c2 = c' := by
          have h0 := ihr c' h.2
          rw [heq2] at h0
          exact h0
        exact h2.trans h1
      · next =>
        exact (ihr c' h.2).trans h1
    · next =>
      exact ihl context h.1
  | Mul l r ihl ihr =>
    intro context h
    simp only [noAssign, Bool.and_eq_true] at h
    simp only [eval_tree]
    split
    · next a c' heq =>
      have h1 : c' = context := by
        have h0 := ihl context h.1
        rw [heq] at h0
        exact h0
      split
      · next b c2 heq2 =>
        have h2 : c2 = c' := by
          have h0 := ihr c' h.2
          rw [heq2] at h0
          exact h0
        exact h2.trans h1
      · next =>
        exact (ihr c' h.2).trans h1
    · next =>
      exact ihl context h.1
  | Div l r ihl ihr =>
    intro context h
    simp only [noAssign, Bool.and_eq_true] at h
    simp only [eval_tree]
    split
    · next a c' heq =>
      have h1 : c' = context := by
        have h0 := ihl context h.1
        rw [heq] at h0
        exact h0
      split
      · next b c2 heq2 =>
        have h2 : c2 = c' := by
          have h0 := ihr c' h.2
          rw [heq2] at h0
          exact h0
        exact h2.trans h1
      · next =>
        exact (ihr c' h.2).trans h1
    · next =>
      exact ihl context h.1

/-- Claim C9, witness: a division tree with an unassigned variable on the
right evaluates (to an error) without touching the context. -/
theorem c9_frame_witness :
    noAssign (ParseTree.Div (ParseTree.Number 1) (ParseTree.Variable "x")) = true ∧
    (eval_tree (ParseTree.Div (ParseTree.Number 1) (ParseTree.Variable "x"))
      [("y", (2 : BigDecimal))]).2 = [("y", (2 : BigDecimal))] :=
  ⟨by decide,
    c9_frame (ParseTree.Div (ParseTree.Number 1) (ParseTree.Variable "x"))
      [("y", (2 : BigDecimal))] (by decide)⟩

/-- Claim C10 (confirmed): chained assignment is rejected.  For all variable
names a, b and any numeric value v, the token form of "a = b = v" fails with
`ExpectedVariable`: assignment operators at equal precedence associate left,
so the left-hand side of the second `=` is already an `Assignment` node, not
a bare variable.  The concrete input "a = b = 1" fails the same way in any
context. -/
theorem c10_chained_assignment :
    (∀ (a b : String) (v : BigDecimal),
      parseTokens [Token.Variable a, Token.Assignment, Token.Variable b,
        Token.Assignment, Token.Number v] = .error .ExpectedVariable) ∧
    ∀ context : EvalContext,
      (eval "a = b = 1" context).1 = .error (.ParseError .ExpectedVariable) :=
  ⟨fun _ _ _ => rfl, fun _ => rfl⟩

end MyCalculator
